import Mathlib

/-!
Shallow embedding of the `keps` package of `chuckha/kepctl`
(`src/keps/proposals.go`) and proofs about its scanner, validator and
collection-sorting operations.

Modelling conventions:
* Go `time.Time` is modelled at its interface (`IsZero`, `After`) by `Nat`:
  the zero instant is `0`, `a.After(b)` is `b < a`.
* The input stream handed to `Parser.Parse` is modelled as the list of lines
  that `bufio.Scanner` delivers (each without its terminator; the code appends
  `"\n"` itself) together with an optional read error that the scanner would
  report, after those lines, via `scanner.Err()`.  `scanner.Err()` only
  reports the error if the loop actually scanned up to the failure point.
* `yaml.Unmarshal` is an external library; `Parse` takes the decoder as a
  parameter `unmarshal : String → Proposal × Option String` returning the
  (possibly partially built) record and an optional decode error.
* `errors.WithStack` wraps an error without changing its presence; it is
  modelled as the identity on the error.
* Go's `sort.Sort` is the standard library; it is modelled by its documented
  contract `SortConforms`: the output is a permutation of the input with no
  `Less`-inversions.  `sort.Sort` is documented as not guaranteed to be
  stable, so any algorithm meeting the contract is a legitimate behaviour.
-/

namespace Kepctl

/-- Go `time.Time` at the interface this code uses: the zero value is `0`,
`a.After(b)` is strict `b < a`. -/
abbrev Time := Nat

/-- The decoded metadata record: Go struct `Proposal` in
`src/keps/proposals.go`. -/
structure Proposal where
  title : String
  authors : List String
  owningSIG : String
  participatingSIGs : List String
  reviewers : List String
  approvers : List String
  creationDate : Time
  lastUpdated : Time
  status : String
  seeAlso : List String
  filename : String
  deriving DecidableEq, Repr

/-- Does `pat` occur at the head of `l`? (helper for `strContains`). -/
def matchesAt : List Char → List Char → Bool
  | [], _ => true
  | _ :: _, [] => false
  | p :: ps, c :: cs => p == c && matchesAt ps cs

/-- Does `pat` occur anywhere in `l`? (helper for `strContains`). -/
def containsSeq (pat : List Char) : List Char → Bool
  | [] => matchesAt pat []
  | c :: cs => matchesAt pat (c :: cs) || containsSeq pat cs

/-- Go `strings.Contains(s, sub)`: substring containment. -/
def strContains (s sub : String) : Bool :=
  containsSeq sub.data s.data

/-- Result of the scan loop in `Parser.Parse`: the accumulated `metadata`
bytes, the lines the loop never consumed (`unread`), and whether the loop
ended because `scanner.Scan()` returned `false` (`atEnd = true`) rather than
by `break` (`atEnd = false`).  `scanner.Err()` can only report a read error
when `atEnd = true`. -/
structure ScanResult where
  metadata : String
  unread : List String
  atEnd : Bool
  deriving DecidableEq, Repr

/-- The `for scanner.Scan()` loop of `Parser.Parse`
(`src/keps/proposals.go:86-96`):

```go
for scanner.Scan() {
    line := scanner.Text() + "\n"
    if strings.Contains(line, "---") {
        count++
        continue
    }
    if count == 2 {
        break
    }
    metadata = append(metadata, []byte(line)...)
}
``` -/
def scanLoop (count : Nat) (metadata : String) : List String → ScanResult
  | [] => ⟨metadata, [], true⟩
  | l :: rest =>
    let line := l ++ "\n"
    if strContains line "---" then
      scanLoop (count + 1) metadata rest
    else if count == 2 then
      ⟨metadata, rest, false⟩
    else
      scanLoop count (metadata ++ line) rest

/-- Embeds `Parser.Parse` (`src/keps/proposals.go:84-104`): run the scan loop; if the
scanner saw a read error (possible only when the loop ran to the end of the
delivered lines), return `(nil, wrapped error)`; otherwise unmarshal the
accumulated metadata and return the (non-nil) record with the decode error,
if any. -/
def Parse (unmarshal : String → Proposal × Option String)
    (lines : List String) (readErr : Option String) :
    Option Proposal × Option String :=
  let r := scanLoop 0 "" lines
  if r.atEnd && readErr.isSome then
    (none, readErr)
  else
    let (proposal, err) := unmarshal r.metadata
    (some proposal, err)

/-- Embeds `validProposalStatus` (`src/keps/proposals.go:106`). -/
def validProposalStatus : List String :=
  ["provisional", "implementable", "implemented", "deferred", "rejected",
   "withdrawn", "replaced"]

/-- Embeds `fieldValidator.isNonEmpty` (`src/keps/proposals.go:129-133`). -/
def isNonEmpty (fv : List String) (field value : String) : List String :=
  if value = "" then fv ++ [field ++ " cannot be empty"] else fv

/-- Embeds `fieldValidator.isNonEmptySlice` (`src/keps/proposals.go:135-139`). -/
def isNonEmptySlice (fv : List String) (field : String) (value : List String) :
    List String :=
  if value.length = 0 then fv ++ [field ++ " cannot be empty"] else fv

/-- Embeds `fieldValidator.isNonZeroTime` (`src/keps/proposals.go:141-145`). -/
def isNonZeroTime (fv : List String) (field : String) (t : Time) :
    List String :=
  if t = 0 then fv ++ [field ++ " cannot be empty"] else fv

/-- The message built by `fieldValidator.isOneOf`
(`fmt.Errorf("'%s' is not a valid %s. Valid options are '%s'", value, field,
strings.Join(validValues, "', '"))`). -/
def oneOfMessage (field value : String) (validValues : List String) : String :=
  "'" ++ value ++ "' is not a valid " ++ field ++ ". Valid options are '" ++
    String.intercalate "', '" validValues ++ "'"

/-- Embeds `fieldValidator.isOneOf` (`src/keps/proposals.go:147-154`): the Go loop
returns without appending as soon as `value` equals one of `validValues`. -/
def isOneOf (fv : List String) (field value : String)
    (validValues : List String) : List String :=
  if value ∈ validValues then fv
  else fv ++ [oneOfMessage field value validValues]

/-- Embeds `fieldValidator.isAfter` (`src/keps/proposals.go:156-160`):
`!value1.After(value2)` is `¬ value2 < value1`. -/
def isAfter (fv : List String) (field1 field2 : String)
    (value1 value2 : Time) : List String :=
  if ¬ value2 < value1 then
    fv ++ [field1 ++ " must be later than " ++ field2]
  else fv

/-- Embeds `Validate` (`src/keps/proposals.go:108-125`), threading the
`fieldValidator` accumulator exactly as the Go code mutates it.  The guard on
the eighth check is Go's `!p.LastUpdated.IsZero() && !p.CreationDate.IsZero()`
and the guard on the tenth is `p.Status != ""`. -/
def Validate (p : Proposal) : List String :=
  let field : List String := []
  let field := isNonEmpty field "title" p.title
  let field := isNonEmptySlice field "authors list" p.authors
  let field := isNonEmpty field "owning-sig" p.owningSIG
  let field := isNonEmptySlice field "reviewers list" p.reviewers
  let field := isNonEmptySlice field "approvers list" p.approvers
  let field := isNonZeroTime field "creation date" p.creationDate
  let field := isNonZeroTime field "last updated date" p.lastUpdated
  let field :=
    if ¬ p.lastUpdated = 0 ∧ ¬ p.creationDate = 0 then
      isAfter field "last updated date" "creation date"
        p.lastUpdated p.creationDate
    else field
  let field := isNonEmpty field "status" p.status
  let field :=
    if ¬ p.status = "" then
      isOneOf field "status" p.status validProposalStatus
    else field
  field

/-- The violations produced by the first eight checks of `Validate`
(everything before the two status checks), written as one concatenation;
`Validate_eq` below proves that `Validate` literally decomposes this way. -/
def preStatusViolations (p : Proposal) : List String :=
  (if p.title = "" then ["title cannot be empty"] else []) ++
  (if p.authors.length = 0 then ["authors list cannot be empty"] else []) ++
  (if p.owningSIG = "" then ["owning-sig cannot be empty"] else []) ++
  (if p.reviewers.length = 0 then ["reviewers list cannot be empty"] else []) ++
  (if p.approvers.length = 0 then ["approvers list cannot be empty"] else []) ++
  (if p.creationDate = 0 then ["creation date cannot be empty"] else []) ++
  (if p.lastUpdated = 0 then ["last updated date cannot be empty"] else []) ++
  (if ¬ p.lastUpdated = 0 ∧ ¬ p.creationDate = 0 then
    (if ¬ p.creationDate < p.lastUpdated then
      ["last updated date must be later than creation date"] else [])
   else [])

/-- Embeds `ByTitle.Less` (`src/keps/proposals.go:26`):
`b[i].Title > b[j].Title` — Go string `>` is lexicographic. -/
def byTitleLess (a b : Proposal) : Bool :=
  decide (b.title < a.title)

/-- Embeds `ByCreationDate.Less` (`src/keps/proposals.go:20`):
`b[i].CreationDate.After(b[j].CreationDate)`. -/
def byCreationDateLess (a b : Proposal) : Bool :=
  decide (b.creationDate < a.creationDate)

/-- The documented contract of Go's `sort.Sort` for a given `Less`: the output
is a permutation of the input with no `Less`-inversions (for every pair, the
later element is not `Less` than the earlier).  `sort.Sort` is explicitly
*not* guaranteed to be stable; any algorithm meeting this contract is a
legitimate behaviour of the code. -/
def SortConforms (impl : List Proposal → List Proposal)
    (less : Proposal → Proposal → Bool) : Prop :=
  ∀ l : List Proposal,
    (impl l).Perm l ∧ (impl l).Pairwise (fun a b => less b a = false)

/-- Embeds `Proposals.SortBy` (`src/keps/proposals.go:32-39`), parameterized by the
sorting algorithm `impl` standing for Go's `sort.Sort` applied to the
interface with the given `Less`. -/
def SortByWith
    (impl : (Proposal → Proposal → Bool) → List Proposal → List Proposal)
    (field : String) (ps : List Proposal) : List Proposal :=
  match field with
  | "created" | "creation" | "creationDate" => impl byCreationDateLess ps
  | "title" => impl byTitleLess ps
  | _ => ps

/-- A reorder `qs` of `ps` is stable when records with any given title keep
their relative order from `ps`. -/
def StableOn (ps qs : List Proposal) : Prop :=
  ∀ t : String,
    qs.filter (fun p => p.title == t) = ps.filter (fun p => p.title == t)

/-- A sorting algorithm meeting `sort.Sort`'s contract that is not stable: it
insertion-sorts the *reversed* input by the non-strict relation induced by
`less`, so ties end up in reversed input order. -/
def badSort (less : Proposal → Proposal → Bool) (l : List Proposal) :
    List Proposal :=
  List.insertionSort (fun a b => less b a = false) l.reverse

/-- The header text accumulated from a run of lines: each line with the
`"\n"` the scan loop appends. -/
def joinLines : List String → String
  | [] => ""
  | l :: rest => (l ++ "\n") ++ joinLines rest

/-- Is this a delimiter line in the sense of the scan loop:
`strings.Contains(line, "---")` on the terminator-restored line. -/
def isMarkerLine (l : String) : Bool := strContains (l ++ "\n") "---"

/-- Number of delimiter-containing lines in the input. -/
def markerCount (ls : List String) : Nat := (ls.filter isMarkerLine).length

/-- A decoder double that always succeeds with a fixed record. -/
def stubDecoder (r : Proposal) : String → Proposal × Option String :=
  fun _ => (r, none)

/-- A decoder double that always fails with a fixed record and error. -/
def failDecoder (r : Proposal) (e : String) :
    String → Proposal × Option String :=
  fun _ => (r, some e)

/-- The zero `Proposal` (every field at its zero value). -/
def emptyProposal : Proposal := ⟨"", [], "", [], [], [], 0, 0, "", [], ""⟩

/-- Two records that differ only in `filename` but share the title `"a"`. -/
def recA : Proposal := ⟨"a", [], "", [], [], [], 0, 0, "", [], "first"⟩

/-- Second of the two equal-titled records, see `recA`. -/
def recB : Proposal := ⟨"a", [], "", [], [], [], 0, 0, "", [], "second"⟩

/-! ## Helper lemmas -/

lemma isNonEmpty_eq (fv : List String) (f v : String) :
    isNonEmpty fv f v =
      fv ++ (if v = "" then [f ++ " cannot be empty"] else []) := by
  unfold isNonEmpty; split <;> simp

lemma isNonEmptySlice_eq (fv : List String) (f : String) (v : List String) :
    isNonEmptySlice fv f v =
      fv ++ (if v.length = 0 then [f ++ " cannot be empty"] else []) := by
  unfold isNonEmptySlice; split <;> simp

lemma isNonZeroTime_eq (fv : List String) (f : String) (t : Time) :
    isNonZeroTime fv f t =
      fv ++ (if t = 0 then [f ++ " cannot be empty"] else []) := by
  unfold isNonZeroTime; split <;> simp

lemma isOneOf_eq (fv : List String) (f v : String) (vs : List String) :
    isOneOf fv f v vs =
      fv ++ (if v ∈ vs then [] else [oneOfMessage f v vs]) := by
  unfold isOneOf; split <;> simp

lemma isAfter_eq (fv : List String) (f1 f2 : String) (v1 v2 : Time) :
    isAfter fv f1 f2 v1 v2 =
      fv ++ (if ¬ v2 < v1 then [f1 ++ " must be later than " ++ f2] else []) := by
  unfold isAfter; split <;> simp

/-- Decomposition: `Validate` is the concatenation of its ten checks, in source order. -/
lemma Validate_eq (p : Proposal) :
    Validate p =
      preStatusViolations p ++
      ((if p.status = "" then ["status cannot be empty"] else []) ++
       (if ¬ p.status = "" then
         (if p.status ∈ validProposalStatus then []
          else [oneOfMessage "status" p.status validProposalStatus])
        else [])) := by
  unfold Validate preStatusViolations
  simp only [isNonEmpty_eq, isNonEmptySlice_eq, isNonZeroTime_eq, isAfter_eq,
    isOneOf_eq, List.nil_append, List.append_assoc]
  by_cases h8 : ¬ p.lastUpdated = 0 ∧ ¬ p.creationDate = 0 <;>
    by_cases h10 : p.status = "" <;>
      simp [h8, h10, List.append_assoc]

/-- An `isOneOf` message always starts with a quote character, so it can never
equal the date-ordering message. -/
lemma oneOfMessage_ne_dateMsg (f v : String) (vs : List String) :
    oneOfMessage f v vs ≠
      "last updated date must be later than creation date" := by
  intro h
  have hd := congrArg (fun s => s.data.head?) h
  simp only [oneOfMessage, String.data_append] at hd
  simp at hd

lemma dateMsg_ne_oneOfMessage (f v : String) (vs : List String) :
    "last updated date must be later than creation date" ≠
      oneOfMessage f v vs :=
  (oneOfMessage_ne_dateMsg f v vs).symm

lemma mem_ite_list {c : Prop} [Decidable c] {m : String} {A B : List String} :
    m ∈ (if c then A else B) ↔ (c ∧ m ∈ A) ∨ (¬ c ∧ m ∈ B) := by
  split <;> simp_all

lemma cond_singleton_eq_nil {c : Prop} [Decidable c] {x : String} :
    (if c then [x] else []) = ([] : List String) ↔ ¬ c := by
  split <;> simp_all

lemma cond_list_eq_nil {c : Prop} [Decidable c] {A : List String} :
    (if c then A else []) = ([] : List String) ↔ (c → A = []) := by
  split <;> simp_all

lemma joinLines_append (a b : List String) :
    joinLines (a ++ b) = joinLines a ++ joinLines b := by
  induction a with
  | nil => simp [joinLines]
  | cons l rest ih => simp [joinLines, ih, String.append_assoc]

/-- A delimiter line bumps the counter and is discarded. -/
lemma scanLoop_marker (count : Nat) (m l : String) (rest : List String)
    (h : isMarkerLine l = true) :
    scanLoop count m (l :: rest) = scanLoop (count + 1) m rest := by
  simp [scanLoop, isMarkerLine] at h ⊢
  simp [h]

/-- With the counter at 2, a non-delimiter line terminates the loop, leaving
the rest of the stream unconsumed. -/
lemma scanLoop_break (m l : String) (rest : List String)
    (h : isMarkerLine l = false) :
    scanLoop 2 m (l :: rest) = ⟨m, rest, false⟩ := by
  simp [scanLoop, isMarkerLine] at h ⊢
  simp [h]

/-- With the counter away from 2, a run of non-delimiter lines is appended to
the metadata wholesale. -/
lemma scanLoop_nonmarker_run (pre : List String) (count : Nat) (m : String)
    (rest : List String) (h : ∀ l ∈ pre, isMarkerLine l = false)
    (hc : count ≠ 2) :
    scanLoop count m (pre ++ rest) =
      scanLoop count (m ++ joinLines pre) rest := by
  induction pre generalizing m with
  | nil => simp [joinLines]
  | cons l tl ih =>
    have hl : isMarkerLine l = false := h l (by simp)
    simp only [List.cons_append, scanLoop]
    rw [if_neg ?_, if_neg ?_]
    · rw [List.append_eq, ih (m ++ (l ++ "\n")) (fun x hx => h x (by simp [hx]))]
      simp [joinLines, String.append_assoc]
    · simpa using hc
    · simp [isMarkerLine] at hl
      simp [hl]

/-- As long as the counter plus the remaining delimiter lines stay at most 1,
the loop consumes the whole input and keeps every non-delimiter line. -/
lemma scanLoop_le_one (ls : List String) (count : Nat) (m : String)
    (h : count + markerCount ls ≤ 1) :
    scanLoop count m ls =
      ⟨m ++ joinLines (ls.filter (fun l => !isMarkerLine l)), [], true⟩ := by
  induction ls generalizing count m with
  | nil => simp [scanLoop, joinLines]
  | cons l tl ih =>
    by_cases hl : isMarkerLine l = true
    · rw [scanLoop_marker _ _ _ _ hl]
      have : markerCount (l :: tl) = markerCount tl + 1 := by
        simp [markerCount, hl]
      rw [ih (count + 1) m (by omega)]
      simp [hl]
    · have hl' : isMarkerLine l = false := by simpa using hl
      have hcount : count ≠ 2 := by
        have : markerCount (l :: tl) = markerCount tl := by
          simp [markerCount, hl']
        omega
      simp only [scanLoop]
      rw [if_neg ?_, if_neg ?_]
      · have : markerCount (l :: tl) = markerCount tl := by
          simp [markerCount, hl']
        rw [ih count (m ++ (l ++ "\n")) (by omega)]
        simp [hl', joinLines, String.append_assoc]
      · simpa using hcount
      · simp [isMarkerLine] at hl'
        simp [hl']

lemma byTitleLess_false_iff (a b : Proposal) :
    (byTitleLess b a = false) ↔ ¬ a.title < b.title := by
  simp [byTitleLess]

/-- Conformance: `badSort` meets the `sort.Sort` contract for the title
comparison. -/
lemma badSort_conforms : SortConforms (badSort byTitleLess) byTitleLess := by
  intro l
  haveI htot : IsTotal Proposal (fun a b => byTitleLess b a = false) := by
    constructor
    intro a b
    by_cases h : a.title < b.title
    · right
      rw [byTitleLess_false_iff]
      exact lt_asymm h
    · left
      rw [byTitleLess_false_iff]
      exact h
  haveI htrans : IsTrans Proposal (fun a b => byTitleLess b a = false) := by
    constructor
    intro a b c hab hbc
    rw [byTitleLess_false_iff] at hab hbc ⊢
    rw [not_lt] at hab hbc ⊢
    exact le_trans hbc hab
  constructor
  · exact (List.perm_insertionSort _ _).trans (List.reverse_perm l)
  · exact List.sorted_insertionSort _ _

/-! ## Claims -/

/-- Claim C1 (counterexample).  The claim says that once the delimiter counter
has reached 2 the scanner reads no further line and includes none in the
header text.  On the stream `["---", "t: x", "---", "---", "secret: 1"]` the
second delimiter-containing line is the third line, yet the scan consumes the
entire stream (`unread = []`, `atEnd = true`) and the line `"secret: 1"`,
which comes after it, is included in the returned header text: the third
delimiter line pushes the counter to 3, so the `count == 2` stop test never
fires again. -/
theorem scanLoop_reads_past_second_marker_cex :
    scanLoop 0 "" ["---", "t: x", "---", "---", "secret: 1"] =
      ⟨"t: x\nsecret: 1\n", [], true⟩ ∧
    "t: x\nsecret: 1\n" ≠ "t: x\n" := by
  decide

/-- Claim C1 (amended).  When the delimiter counter is exactly 2 and the
scanner reads a line that does not contain the marker, it stops: that line is
discarded, the accumulated header text is returned unchanged, and no later
line of the stream is read.  (This is the most the code guarantees: the line
triggering the stop is itself read, and delimiter-containing lines after the
second are read and counted, so once the counter exceeds 2 later non-marker
lines are read and included again — see the counterexample.) -/
theorem scanLoop_stops_on_nonmarker_at_two (metadata l : String)
    (rest : List String) (h : isMarkerLine l = false) :
    scanLoop 2 metadata (l :: rest) = ⟨metadata, rest, false⟩ :=
  scanLoop_break metadata l rest h

/-- Witness for `scanLoop_stops_on_nonmarker_at_two` at a concrete stream. -/
theorem scanLoop_stops_on_nonmarker_at_two_witness :
    scanLoop 2 "t: x\n" ["body line", "more body"] =
      ⟨"t: x\n", ["more body"], false⟩ :=
  scanLoop_stops_on_nonmarker_at_two "t: x\n" "body line" ["more body"]
    (by decide)

/-- Claim C2 (counterexample).  The claim requires `SortBy("title")` to be a
stable reorder.  The code calls `sort.Sort`, which only promises a
permutation with no `Less`-inversions and is documented as not stable.
`badSort` meets that contract, yet on the two equal-titled records
`[recA, recB]` it returns them in the order `[recB, recA]`, so records whose
titles compare equal do not keep their relative order. -/
theorem sortBy_title_unstable_cex :
    SortConforms (badSort byTitleLess) byTitleLess ∧
    recA.title = recB.title ∧
    ¬ StableOn [recA, recB] (SortByWith badSort "title" [recA, recB]) := by
  refine ⟨badSort_conforms, rfl, ?_⟩
  have hev : SortByWith badSort "title" [recA, recB] = [recB, recA] := by
    show badSort byTitleLess [recA, recB] = [recB, recA]
    simp [badSort, List.insertionSort, List.orderedInsert, byTitleLess,
      recA, recB]
  intro hstable
  have h := hstable "a"
  rw [hev] at h
  simp [recA, recB] at h

/-- Claim C2 (amended).  For every sorting algorithm meeting `sort.Sort`'s
contract for the title comparison, `SortBy("title")` reorders the collection
into a permutation in descending lexicographic order by title.  Stability is
not guaranteed (the code uses `sort.Sort`, not `sort.Stable`). -/
theorem sortBy_title_sorts_descending
    (impl : (Proposal → Proposal → Bool) → List Proposal → List Proposal)
    (h : SortConforms (impl byTitleLess) byTitleLess) (ps : List Proposal) :
    (SortByWith impl "title" ps).Perm ps ∧
    (SortByWith impl "title" ps).Pairwise (fun a b => b.title ≤ a.title) := by
  have hs := h ps
  have he : SortByWith impl "title" ps = impl byTitleLess ps := rfl
  rw [he]
  refine ⟨hs.1, hs.2.imp ?_⟩
  intro a b hab
  rw [byTitleLess_false_iff, not_lt] at hab
  exact hab

/-- Witness for `sortBy_title_sorts_descending` at a concrete conforming
algorithm and collection. -/
theorem sortBy_title_sorts_descending_witness :
    (SortByWith badSort "title" [recA]).Perm [recA] ∧
    (SortByWith badSort "title" [recA]).Pairwise
      (fun a b => b.title ≤ a.title) :=
  sortBy_title_sorts_descending badSort badSort_conforms [recA]

/-- Claim C3 (counterexample).  The claim says that with exactly two
delimiter-containing lines the returned header is exactly the lines strictly
between them.  On `["pre: 1", "---", "a: b", "---"]` there are exactly two
delimiter lines, but the line `"pre: 1"`, which precedes the first delimiter,
is also included: the header is `"pre: 1\na: b\n"`, not `"a: b\n"`. -/
theorem scanner_includes_leading_lines_cex :
    markerCount ["pre: 1", "---", "a: b", "---"] = 2 ∧
    (scanLoop 0 "" ["pre: 1", "---", "a: b", "---"]).metadata =
      "pre: 1\na: b\n" ∧
    "pre: 1\na: b\n" ≠ "a: b\n" := by
  decide

/-- Claim C3 (amended).  For an input whose lines are: a marker-free run
`pre`, a delimiter line, a marker-free run `mid`, a second delimiter line,
and a marker-free run `post` (so exactly two delimiter-containing lines), the
scan returns as header text every non-delimiter line *preceding the second
delimiter line* — that is `pre ++ mid`, each line with a `"\n"` terminator —
excluding both delimiter lines and everything after the second; no scan error
arises (the error branch of `Parse` only fires for a read error).  If `post`
is empty the loop reaches end of input; otherwise it stops at the first line
of `post` without including it. -/
theorem scanner_two_markers (pre mid post : List String) (m1 m2 : String)
    (hpre : ∀ l ∈ pre, isMarkerLine l = false)
    (hmid : ∀ l ∈ mid, isMarkerLine l = false)
    (hpost : ∀ l ∈ post, isMarkerLine l = false)
    (h1 : isMarkerLine m1 = true) (h2 : isMarkerLine m2 = true) :
    scanLoop 0 "" (pre ++ [m1] ++ mid ++ [m2] ++ post) =
      match post with
      | [] => ⟨joinLines (pre ++ mid), [], true⟩
      | _ :: rest => ⟨joinLines (pre ++ mid), rest, false⟩ := by
  rw [show pre ++ [m1] ++ mid ++ [m2] ++ post =
        pre ++ (m1 :: (mid ++ (m2 :: post))) by simp]
  rw [scanLoop_nonmarker_run pre 0 "" _ hpre (by omega)]
  rw [scanLoop_marker _ _ _ _ h1]
  rw [scanLoop_nonmarker_run mid 1 _ _ hmid (by omega)]
  rw [scanLoop_marker _ _ _ _ h2]
  rw [joinLines_append]
  cases post with
  | nil => simp [scanLoop]
  | cons p rest =>
    exact scanLoop_break _ _ _ (hpost p (by simp))

/-- Witness for `scanner_two_markers` at a concrete stream with leading
content, two delimiter lines and a body. -/
theorem scanner_two_markers_witness :
    scanLoop 0 "" ["x: y", "---", "a: b", "---", "body"] =
      ⟨"x: y\na: b\n", [], false⟩ := by
  have h := scanner_two_markers ["x: y"] ["a: b"] ["body"] "---" "---"
    (by decide) (by decide) (by decide) (by decide) (by decide)
  simpa using h

/-- Claim C4 (counterexample).  The claim says that with zero or one
delimiter-marker occurrences the entire remaining input is returned as header
text.  On `["a: b", "---", "c: d"]` there is exactly one delimiter line, but
the returned header is `"a: b\nc: d\n"`: the delimiter line itself is
discarded, so the header is not the entire input. -/
theorem scanner_one_marker_drops_marker_cex :
    markerCount ["a: b", "---", "c: d"] = 1 ∧
    (scanLoop 0 "" ["a: b", "---", "c: d"]).metadata = "a: b\nc: d\n" ∧
    "a: b\nc: d\n" ≠ joinLines ["a: b", "---", "c: d"] := by
  decide

/-- Claim C4 (amended).  For every input with at most one delimiter-containing
line, `Parse` reaches end of input (nothing is left unread) and returns as
header text the entire input *minus any delimiter-containing line*, each kept
line with a `"\n"` terminator; with no read error, `Parse` reports no scanner
error: it returns a non-nil record and at most a decode error. -/
theorem scanner_few_markers (lines : List String)
    (h : markerCount lines ≤ 1) :
    scanLoop 0 "" lines =
      ⟨joinLines (lines.filter (fun l => !isMarkerLine l)), [], true⟩ ∧
    ∀ unmarshal : String → Proposal × Option String,
      Parse unmarshal lines none =
        (some (unmarshal (joinLines
          (lines.filter (fun l => !isMarkerLine l)))).1,
         (unmarshal (joinLines
          (lines.filter (fun l => !isMarkerLine l)))).2) := by
  have hs := scanLoop_le_one lines 0 "" (by omega)
  simp only [String.empty_append] at hs
  constructor
  · exact hs
  · intro unmarshal
    simp [Parse, hs]

/-- Witness for `scanner_few_markers` at a concrete marker-free stream. -/
theorem scanner_few_markers_witness :
    scanLoop 0 "" ["t: a", "u: b"] =
      ⟨joinLines ((["t: a", "u: b"]).filter (fun l => !isMarkerLine l)),
       [], true⟩ :=
  (scanner_few_markers ["t: a", "u: b"] (by decide)).1

/-- Claim C5.  For a record with empty title, empty authors and empty status
whose remaining fields are valid (non-empty `owning-sig`, reviewers and
approvers, both dates non-zero with `lastUpdated` strictly after
`creationDate`), `Validate` returns exactly the three messages for title,
authors and status, in that fixed order — every applicable check ran and
nothing short-circuited. -/
theorem validate_missing_title_authors_status (p : Proposal)
    (ht : p.title = "") (ha : p.authors = []) (hs : p.status = "")
    (hog : ¬ p.owningSIG = "") (hr : ¬ p.reviewers = [])
    (hap : ¬ p.approvers = []) (hcd : ¬ p.creationDate = 0)
    (hlu : ¬ p.lastUpdated = 0) (hord : p.creationDate < p.lastUpdated) :
    Validate p = ["title cannot be empty", "authors list cannot be empty",
      "status cannot be empty"] := by
  rw [Validate_eq]
  simp [preStatusViolations, ht, ha, hs, hog, hr, hap, hcd, hlu, hord,
    List.length_eq_zero]

/-- Witness for `validate_missing_title_authors_status` at a concrete
record. -/
theorem validate_missing_title_authors_status_witness :
    Validate ⟨"", [], "sig-a", [], ["r1"], ["a1"], 10, 20, "", [], ""⟩ =
      ["title cannot be empty", "authors list cannot be empty",
       "status cannot be empty"] :=
  validate_missing_title_authors_status
    ⟨"", [], "sig-a", [], ["r1"], ["a1"], 10, 20, "", [], ""⟩
    rfl rfl rfl (by decide) (by decide) (by decide) (by decide) (by decide)
    (by decide)

/-- Claim C6.  When both dates are non-zero, `Validate` includes the message
`"last updated date must be later than creation date"` exactly when
`lastUpdated` is not strictly after `creationDate` (equal dates violate);
when either date is zero, the ordering check is skipped and the ordering
message never appears. -/
theorem validate_date_ordering (p : Proposal) :
    (¬ p.creationDate = 0 → ¬ p.lastUpdated = 0 →
      ("last updated date must be later than creation date" ∈ Validate p ↔
        ¬ p.creationDate < p.lastUpdated)) ∧
    ((p.creationDate = 0 ∨ p.lastUpdated = 0) →
      "last updated date must be later than creation date" ∉ Validate p) := by
  constructor
  · intro hc hl
    rw [Validate_eq]
    simp [preStatusViolations, hc, hl, mem_ite_list, dateMsg_ne_oneOfMessage]
  · intro h
    rw [Validate_eq]
    rcases h with h | h <;>
      simp [preStatusViolations, h, mem_ite_list, dateMsg_ne_oneOfMessage]

/-- Witness for `validate_date_ordering`: with equal non-zero dates the
ordering message is present. -/
theorem validate_date_ordering_witness :
    "last updated date must be later than creation date" ∈
      Validate ⟨"t", ["a"], "g", [], ["r"], ["ap"], 7, 7,
        "provisional", [], ""⟩ :=
  ((validate_date_ordering
      ⟨"t", ["a"], "g", [], ["r"], ["ap"], 7, 7, "provisional", [], ""⟩).1
    (by decide) (by decide)).mpr (by decide)

/-- Claim C7.  With a non-empty status outside the enumerated set, `Validate`
appends (after the first eight checks) exactly the message
`"'<value>' is not a valid status. Valid options are '…'"` built from the
record's status; with an empty status the membership check is skipped and
only the emptiness message `"status cannot be empty"` is appended. -/
theorem validate_status_membership (p : Proposal) :
    (¬ p.status = "" → p.status ∉ validProposalStatus →
      Validate p = preStatusViolations p ++
        [oneOfMessage "status" p.status validProposalStatus]) ∧
    (p.status = "" →
      Validate p = preStatusViolations p ++ ["status cannot be empty"]) := by
  constructor
  · intro h hmem
    rw [Validate_eq]
    simp [h, hmem]
  · intro h
    rw [Validate_eq]
    simp [h]

/-- Witness for `validate_status_membership` at status `"foo"`, also pinning
down the literal text of the generated message. -/
theorem validate_status_membership_witness :
    Validate ⟨"t", ["a"], "g", [], ["r"], ["ap"], 1, 2, "foo", [], ""⟩ =
      preStatusViolations
        ⟨"t", ["a"], "g", [], ["r"], ["ap"], 1, 2, "foo", [], ""⟩ ++
      [oneOfMessage "status" "foo" validProposalStatus] ∧
    oneOfMessage "status" "foo" validProposalStatus =
      "'foo' is not a valid status. Valid options are 'provisional', 'implementable', 'implemented', 'deferred', 'rejected', 'withdrawn', 'replaced'" :=
  ⟨(validate_status_membership
      ⟨"t", ["a"], "g", [], ["r"], ["ap"], 1, 2, "foo", [], ""⟩).1
    (by decide) (by decide), by decide⟩

/-- Claim C8.  `Validate` returns the empty violation list exactly when:
title, `owning-sig` and status are non-empty, the authors, reviewers and
approvers lists are non-empty, both dates are non-zero with `lastUpdated`
strictly after `creationDate`, and status belongs to the enumerated set. -/
theorem validate_empty_iff_valid (p : Proposal) :
    Validate p = [] ↔
      (¬ p.title = "" ∧ ¬ p.authors = [] ∧ ¬ p.owningSIG = "" ∧
       ¬ p.reviewers = [] ∧ ¬ p.approvers = [] ∧ ¬ p.creationDate = 0 ∧
       ¬ p.lastUpdated = 0 ∧ p.creationDate < p.lastUpdated ∧
       ¬ p.status = "" ∧ p.status ∈ validProposalStatus) := by
  rw [Validate_eq]
  simp [preStatusViolations, List.append_eq_nil, cond_singleton_eq_nil,
    cond_list_eq_nil, List.length_eq_zero, not_not]
  tauto

/-- Witness for `validate_empty_iff_valid`: a fully valid record yields the
empty list. -/
theorem validate_empty_iff_valid_witness :
    Validate ⟨"t", ["a"], "g", [], ["r"], ["ap"], 1, 2,
      "provisional", [], ""⟩ = [] :=
  (validate_empty_iff_valid
    ⟨"t", ["a"], "g", [], ["r"], ["ap"], 1, 2, "provisional", [], ""⟩).mpr
    (by decide)

/-- Claim C9.  When scanning succeeds (no read error) and decoding the
extracted header text fails, `Parse` returns the partially-constructed
record as a non-nil `some` together with the non-nil decode error: callers
must check the error, not the nil-ness of the record. -/
theorem parse_decode_failure (unmarshal : String → Proposal × Option String)
    (lines : List String) (prop : Proposal) (e : String)
    (h : unmarshal ((scanLoop 0 "" lines).metadata) = (prop, some e)) :
    Parse unmarshal lines none = (some prop, some e) := by
  simp [Parse, h]

/-- Witness for `parse_decode_failure` with a concrete failing decoder. -/
theorem parse_decode_failure_witness :
    Parse (failDecoder emptyProposal "yaml: decode error") ["title: x"] none =
      (some emptyProposal, some "yaml: decode error") :=
  parse_decode_failure (failDecoder emptyProposal "yaml: decode error")
    ["title: x"] emptyProposal "yaml: decode error" rfl

/-- Claim C10 (counterexample).  The claim says every stream whose underlying
read fails yields `(nil, wrapped error)`.  But a read error is only visible
to `scanner.Err()` if the loop scans up to the failure point: on
`["---", "title: a", "---", "body"]` the loop breaks at `"body"` (counter at
2) before reaching the error, so `Parse` returns a non-nil record and *no*
error even though the underlying read fails right after the delivered
lines. -/
theorem parse_read_failure_unobserved_cex :
    Parse (stubDecoder emptyProposal) ["---", "title: a", "---", "body"]
        (some "read failure") = (some emptyProposal, none) ∧
    (some emptyProposal, (none : Option String)) ≠
      ((none : Option Proposal), some "read failure") := by
  decide

/-- Claim C10 (amended).  When the scan loop consumes all delivered lines
(so it reaches the failure point rather than breaking early), a failing read
makes `Parse` return a nil record — no partial header or record at all —
together with the wrapped read error, in contrast to decode failures, where
the returned record is non-nil. -/
theorem parse_read_failure_at_end
    (unmarshal : String → Proposal × Option String)
    (lines : List String) (e : String)
    (h : (scanLoop 0 "" lines).atEnd = true) :
    Parse unmarshal lines (some e) = (none, some e) := by
  simp [Parse, h]

/-- Witness for `parse_read_failure_at_end` at a concrete stream that is
fully scanned. -/
theorem parse_read_failure_at_end_witness :
    Parse (stubDecoder emptyProposal) ["---", "title: a"] (some "boom") =
      (none, some "boom") :=
  parse_read_failure_at_end (stubDecoder emptyProposal) ["---", "title: a"]
    "boom" (by decide)

end Kepctl
